import Mathlib

/-
Verification of the validated-accumulator core of `src/src/template.cpp`
(repository mbn-code/cf) against its specification.

The program is modelled as a pure function over a stream of whitespace-
delimited input tokens.  `operator>>` on `int` either extracts a value or
fails: it fails at end of input, on a malformed token, and (per C++11
semantics) on a well-formed integer literal whose value is not representable
in 32-bit `int`.  A token is therefore either `num v` (a well-formed decimal
integer literal of mathematical value `v`) or `junk` (malformed).  Machine
integers are modelled as `Int` with the relevant range bounds made explicit;
the program never performs a native arithmetic operation whose result could
leave the `long long` range (proved below), so `Int` arithmetic coincides
with the C++ semantics on every executed path.
-/

set_option maxRecDepth 10000

namespace CF

/-- 32-bit `INT_MIN`. -/
def INT_MIN : Int := -2147483648

/-- 32-bit `INT_MAX`. -/
def INT_MAX : Int := 2147483647

/-- `const ll LLINF = 9e18;` (template.cpp:84).  The double literal `9e18`
is exactly representable (9·10^18 = 2^19 · 9·5^18·2^{-1}... its mantissa
fits in 53 bits), so the conversion to `long long` yields exactly
9000000000000000000. -/
def LLINF : Int := 9000000000000000000

/-- `INT64_MIN`, the smallest `long long` value. -/
def INT64_MIN : Int := -9223372036854775808

/-- `INT64_MAX`, the largest `long long` value. -/
def INT64_MAX : Int := 9223372036854775807

/-- One whitespace-delimited input token: a well-formed decimal integer
literal of value `v`, or a malformed token. -/
inductive Token where
  | num (v : Int)
  | junk
deriving DecidableEq

/-- The failure kinds of the validated accumulator, distinguished by the
diagnostic each failing helper prints to `cerr` before `exit(1)`:
`readInt`'s extraction failure, `validateRange`'s bound violation, and
`canAdd`'s overflow report. -/
inductive Failure where
  | ParseError
  | RangeError
  | OverflowError
deriving DecidableEq

/-- The observable result of one run of `solve`: the printed sum, or the
failure kind on which the process called `exit(1)`. -/
inductive Outcome where
  | ok (sum : Int)
  | fail (f : Failure)
deriving DecidableEq

/-- `validateRange` (template.cpp:97-104): in-range test; on violation it
prints a diagnostic to `cerr` and returns `false`. -/
def validateRange (value min_val max_val : Int) : Bool :=
  if value < min_val ∨ value > max_val then false else true

/-- The guard under which `canMultiply` (template.cpp:128-135) evaluates the
division `LLINF / abs(b)`: by short-circuit evaluation of
`if (a == 0 || b == 0) return true;` on line 129, control reaches the
division on line 130 exactly when `a ≠ 0` and `b ≠ 0`. -/
def canMultiplyDivides (a b : Int) : Bool :=
  if a = 0 ∨ b = 0 then false else true

/-- `canMultiply` (template.cpp:128-135): overflow pre-check for `a * b`.
Returns `true` at once when either operand is zero; otherwise compares `a`
against `LLINF / |b|` (C++ `/` truncates toward zero, which on the
nonnegative dividend `LLINF` and positive divisor `|b|` agrees with
mathematical floor division, i.e. with Lean's `Int` division). -/
def canMultiply (a b : Int) : Bool :=
  if a = 0 ∨ b = 0 then true
  else if a > LLINF / |b| then false
  else true

/-- `canAdd` (template.cpp:143-153): overflow pre-check for `a + b`,
testing against `±LLINF` (not `INT64_MAX`/`INT64_MIN`).  On failure it
prints an overflow diagnostic to `cerr` and returns `false`. -/
def canAdd (a b : Int) : Bool :=
  if b > 0 ∧ a > LLINF - b then false
  else if b < 0 ∧ a < -LLINF - b then false
  else true

/-- `readInt` (template.cpp:163-173): extract one `int` from the stream and
validate it against `[min_val, max_val]`.  Extraction (`cin >> x`) fails at
end of input, on a malformed token, and on an integer literal outside the
32-bit `int` range (C++11 stores a clamped value and sets `failbit`; the
program then exits, so the clamped value is never used). -/
def readInt (min_val max_val : Int) :
    List Token → Except Failure (Int × List Token)
  | [] => .error .ParseError
  | .junk :: _ => .error .ParseError
  | .num v :: rest =>
    if v < INT_MIN ∨ v > INT_MAX then .error .ParseError
    else if validateRange v min_val max_val then .ok (v, rest)
    else .error .RangeError

/-- `readVector` (template.cpp:182-188): read `n` integers left to right,
each via `readInt min_val max_val`; the first failure aborts the run. -/
def readVector : Nat → Int → Int → List Token →
    Except Failure (List Int × List Token)
  | 0, _, _, toks => .ok ([], toks)
  | n + 1, lo, hi, toks =>
    match readInt lo hi toks with
    | .error f => .error f
    | .ok (x, rest) =>
      match readVector n lo hi rest with
      | .error f => .error f
      | .ok (xs, r2) => .ok (x :: xs, r2)

/-- The summation loop of `solve` (template.cpp:216-222): for each element
`x`, check `canAdd sum x` first and only then execute `sum += x`; on a
failed check the process exits with the overflow diagnostic. -/
def sumLoop (sum : Int) : List Int → Except Failure Int
  | [] => .ok sum
  | x :: xs =>
    if canAdd sum x then sumLoop (sum + x) xs else .error .OverflowError

/-- `solve` (template.cpp:213-224): read the count `n` with bounds
`[1, 1000000]`, read the `n` elements with bounds `[INT_MIN, INT_MAX]` into
a vector, then fold the overflow-checked addition over the vector and print
the sum. -/
def solve (toks : List Token) : Outcome :=
  match readInt 1 1000000 toks with
  | .error f => .fail f
  | .ok (n, rest) =>
    match readVector n.toNat INT_MIN INT_MAX rest with
    | .error f => .fail f
    | .ok (v, _) =>
      match sumLoop 0 v with
      | .error f => .fail f
      | .ok s => .ok s

/-- Bytes written to standard output: `solve` touches `cout` only on its
last line, `cout << sum << '\n'`, so a failing run writes nothing. -/
def programStdout (toks : List Token) : String :=
  match solve toks with
  | .ok s => toString s ++ "\n"
  | .fail _ => ""

/-- Process exit status: `main` returns 0 after `solve` completes; every
validation failure calls `exit(1)` first. -/
def programExit (toks : List Token) : Nat :=
  match solve toks with
  | .ok _ => 0
  | .fail _ => 1

/-- Bytes written to the diagnostic channel (`cerr`, distinct from `cout`):
each failing helper prints one human-readable line before exiting.  The
value/bound interpolation of the source messages is elided; the spec makes
only the presence of a diagnostic, never its wording, an interface. -/
def programStderr (toks : List Token) : String :=
  match solve toks with
  | .ok _ => ""
  | .fail .ParseError => "Error: Failed to read integer\n"
  | .fail .RangeError => "Error: Value out of range\n"
  | .fail .OverflowError => "Error: Addition overflow\n"

/-- Reference model for the element phase in the scan order stated by the
spec's `solve` algorithm: interleaved read-and-add, one `readInt` followed
by one checked addition per element. -/
def interleavedLoop : Nat → Int → List Token → Outcome
  | 0, sum, _ => .ok sum
  | n + 1, sum, toks =>
    match readInt INT_MIN INT_MAX toks with
    | .error f => .fail f
    | .ok (x, rest) =>
      if canAdd sum x then interleavedLoop n (sum + x) rest
      else .fail .OverflowError

/-- Reference model of the spec's `solve`: same count read as the source,
but elements processed with interleaved read-and-add rather than
read-all-then-add. -/
def solveInterleaved (toks : List Token) : Outcome :=
  match readInt 1 1000000 toks with
  | .error f => .fail f
  | .ok (n, rest) => interleavedLoop n.toNat 0 rest

/-! ### Helper lemmas -/

/-- Unpacking a successful `readInt`: the stream began with a well-formed
token whose value passed both the 32-bit extraction test and the caller's
bounds. -/
theorem readInt_ok_elim {lo hi v : Int} {toks rest : List Token}
    (h : readInt lo hi toks = .ok (v, rest)) :
    toks = Token.num v :: rest ∧ lo ≤ v ∧ v ≤ hi ∧
      -2147483648 ≤ v ∧ v ≤ 2147483647 := by
  match toks with
  | [] => simp [readInt] at h
  | .junk :: r => simp [readInt] at h
  | .num w :: r =>
    simp only [readInt, INT_MIN, INT_MAX] at h
    by_cases h1 : w < -2147483648 ∨ w > 2147483647
    · rw [if_pos h1] at h; exact absurd h (by simp)
    · rw [if_neg h1] at h
      by_cases h2 : validateRange w lo hi = true
      · rw [if_pos h2] at h
        simp only [Except.ok.injEq, Prod.mk.injEq] at h
        obtain ⟨rfl, rfl⟩ := h
        simp only [validateRange] at h2
        by_cases h3 : w < lo ∨ w > hi
        · rw [if_pos h3] at h2; exact absurd h2 (by simp)
        · exact ⟨rfl, by omega, by omega, by omega, by omega⟩
      · rw [if_neg h2] at h; exact absurd h (by simp)

/-- A value inside both the 32-bit range and the caller's bounds is read
successfully. -/
theorem readInt_ok_intro {lo hi v : Int} (rest : List Token)
    (h1 : lo ≤ v) (h2 : v ≤ hi)
    (h3 : -2147483648 ≤ v) (h4 : v ≤ 2147483647) :
    readInt lo hi (Token.num v :: rest) = .ok (v, rest) := by
  have hv : validateRange v lo hi = true := by
    simp only [validateRange]
    rw [if_neg (by omega)]
  simp only [readInt, INT_MIN, INT_MAX]
  rw [if_neg (by omega), if_pos hv]

/-- What `canAdd a b = true` tells us about `a` and `b`. -/
theorem canAdd_true_bounds {a b : Int} (h : canAdd a b = true) :
    ¬(b > 0 ∧ a > 9000000000000000000 - b) ∧
      ¬(b < 0 ∧ a < -9000000000000000000 - b) := by
  unfold canAdd LLINF at h
  by_cases h1 : b > 0 ∧ a > 9000000000000000000 - b
  · rw [if_pos h1] at h; exact absurd h (by simp)
  · rw [if_neg h1] at h
    by_cases h2 : b < 0 ∧ a < -9000000000000000000 - b
    · rw [if_pos h2] at h; exact absurd h (by simp)
    · exact ⟨h1, h2⟩

/-- `canAdd` accepts any 32-bit term whenever the accumulator is at least
one 32-bit quantum away from `±LLINF`. -/
theorem canAdd_int32 {sum x : Int}
    (h1 : -9000000000000000000 + 2147483648 ≤ sum)
    (h2 : sum ≤ 9000000000000000000 - 2147483648)
    (h3 : -2147483648 ≤ x) (h4 : x ≤ 2147483647) :
    canAdd sum x = true := by
  unfold canAdd LLINF
  rw [if_neg (by omega), if_neg (by omega)]

/-- `readVector` succeeds on a stream of well-formed 32-bit tokens and
returns exactly those values in order. -/
theorem readVector_ok (xs : List Int)
    (h : ∀ x ∈ xs, -2147483648 ≤ x ∧ x ≤ 2147483647) :
    readVector xs.length INT_MIN INT_MAX (xs.map Token.num) = .ok (xs, []) := by
  induction xs with
  | nil => rfl
  | cons x xs ih =>
    have hx := h x (List.mem_cons_self x xs)
    have hrec := ih (fun y hy => h y (List.mem_cons_of_mem x hy))
    have hri : readInt INT_MIN INT_MAX (Token.num x :: xs.map Token.num) =
        .ok (x, xs.map Token.num) :=
      readInt_ok_intro (xs.map Token.num)
        (by simp only [INT_MIN]; omega) (by simp only [INT_MAX]; omega)
        hx.1 hx.2
    simp only [List.length_cons, List.map_cons, readVector, hri, hrec]

/-- If some element lies outside the 32-bit range, `readVector` aborts with
the extraction failure of the first such element. -/
theorem readVector_parse_fail (xs : List Int)
    (h : ∃ x ∈ xs, x < -2147483648 ∨ x > 2147483647) :
    readVector xs.length INT_MIN INT_MAX (xs.map Token.num) =
      .error .ParseError := by
  induction xs with
  | nil => simp at h
  | cons x xs ih =>
    by_cases hx : x < -2147483648 ∨ x > 2147483647
    · have hri : readInt INT_MIN INT_MAX (Token.num x :: xs.map Token.num) =
          .error .ParseError := by
        simp only [readInt, INT_MIN, INT_MAX]
        rw [if_pos hx]
      simp only [List.length_cons, List.map_cons, readVector, hri]
    · obtain ⟨y, hy, hby⟩ := h
      rcases List.mem_cons.mp hy with rfl | h1
      · exact absurd hby hx
      · have hr := ih ⟨y, h1, hby⟩
        have hri : readInt INT_MIN INT_MAX (Token.num x :: xs.map Token.num) =
            .ok (x, xs.map Token.num) :=
          readInt_ok_intro (xs.map Token.num)
            (by simp only [INT_MIN]; omega) (by simp only [INT_MAX]; omega)
            (by omega) (by omega)
        simp only [List.length_cons, List.map_cons, readVector, hri, hr]

/-- The summation loop returns the exact mathematical sum whenever every
term is 32-bit and the worst-case drift `length · 2^31` cannot reach
`±LLINF` from the starting accumulator. -/
theorem sumLoop_ok (xs : List Int) : ∀ (sum : Int),
    (∀ x ∈ xs, -2147483648 ≤ x ∧ x ≤ 2147483647) →
    -9000000000000000000 + (xs.length : Int) * 2147483648 ≤ sum →
    sum ≤ 9000000000000000000 - (xs.length : Int) * 2147483648 →
    sumLoop sum xs = .ok (sum + xs.sum) := by
  induction xs with
  | nil =>
    intro sum _ _ _
    simp [sumLoop]
  | cons x xs ih =>
    intro sum h hlo hhi
    have hx := h x (List.mem_cons_self x xs)
    have hn0 : (0 : Int) ≤ (xs.length : Int) := Int.natCast_nonneg _
    push_cast [List.length_cons] at hlo hhi
    have hca : canAdd sum x = true :=
      canAdd_int32 (by omega) (by omega) hx.1 hx.2
    simp only [sumLoop]
    rw [if_pos hca]
    rw [ih (sum + x) (fun y hy => h y (List.mem_cons_of_mem x hy))
      (by omega) (by omega)]
    simp only [List.sum_cons, Except.ok.injEq]
    omega

/-- A list of 32-bit values has sum bounded by `length · 2^31` in absolute
value. -/
theorem sum_bounds_int32 (ys : List Int)
    (h : ∀ x ∈ ys, -2147483648 ≤ x ∧ x ≤ 2147483647) :
    -((ys.length : Int) * 2147483648) ≤ ys.sum ∧
      ys.sum ≤ (ys.length : Int) * 2147483648 := by
  induction ys with
  | nil => simp
  | cons x ys ih =>
    have hx := h x (List.mem_cons_self x ys)
    have ih' := ih (fun y hy => h y (List.mem_cons_of_mem x hy))
    simp only [List.length_cons, List.sum_cons]
    push_cast
    omega

/-- The summation loop keeps the accumulator inside `[-LLINF, LLINF]`:
every addition it actually executes was approved by `canAdd`. -/
theorem sumLoop_inv (xs : List Int) : ∀ (acc s : Int),
    -9000000000000000000 ≤ acc → acc ≤ 9000000000000000000 →
    sumLoop acc xs = .ok s →
    -9000000000000000000 ≤ s ∧ s ≤ 9000000000000000000 := by
  induction xs with
  | nil =>
    intro acc s h1 h2 h
    simp only [sumLoop, Except.ok.injEq] at h
    omega
  | cons x xs ih =>
    intro acc s h1 h2 h
    simp only [sumLoop] at h
    by_cases hca : canAdd acc x = true
    · rw [if_pos hca] at h
      have hb := canAdd_true_bounds hca
      exact ih (acc + x) s (by omega) (by omega) h
    · rw [if_neg hca] at h
      exact absurd h (by simp)

/-- The read-all-then-add element phase of the source equals the
interleaved read-and-add phase of the spec, as long as the accumulator
stays a worst-case drift away from `±LLINF`. -/
theorem interleaved_eq_aux (n : Nat) : ∀ (sum : Int) (toks : List Token),
    -9000000000000000000 + (n : Int) * 2147483648 ≤ sum →
    sum ≤ 9000000000000000000 - (n : Int) * 2147483648 →
    interleavedLoop n sum toks =
      (match readVector n INT_MIN INT_MAX toks with
       | .error f => .fail f
       | .ok (v, _) =>
         match sumLoop sum v with
         | .error f => .fail f
         | .ok s => .ok s) := by
  induction n with
  | zero =>
    intro sum toks _ _
    rfl
  | succ n ih =>
    intro sum toks hlo hhi
    cases hread : readInt INT_MIN INT_MAX toks with
    | error f =>
      simp only [interleavedLoop, readVector, hread]
    | ok p =>
      obtain ⟨x, rest⟩ := p
      obtain ⟨-, -, -, hx3, hx4⟩ := readInt_ok_elim hread
      have hn0 : (0 : Int) ≤ (n : Int) := Int.natCast_nonneg _
      push_cast at hlo hhi
      have hca : canAdd sum x = true :=
        canAdd_int32 (by omega) (by omega) hx3 hx4
      simp only [interleavedLoop, readVector, hread]
      rw [if_pos hca]
      rw [ih (sum + x) rest (by omega) (by omega)]
      cases hrv : readVector n INT_MIN INT_MAX rest with
      | error f => simp only [hrv]
      | ok q =>
        obtain ⟨xs, r2⟩ := q
        simp only [hrv, sumLoop]
        rw [if_pos hca]

/-! ### Claim theorems -/

/-- C1 (amended): for every input consisting of a valid count `n`
(`1 ≤ n ≤ 1000000`) followed by `n` well-formed integer tokens each
representable in signed 32 bits, the program emits exactly the true
mathematical sum of the tokens, newline-terminated, on standard output and
exits with status 0. -/
theorem C1_solve_sum_correct (n : Int) (xs : List Int)
    (hn1 : 1 ≤ n) (hn2 : n ≤ 1000000) (hlen : xs.length = n.toNat)
    (hel : ∀ x ∈ xs, -2147483648 ≤ x ∧ x ≤ 2147483647) :
    solve (Token.num n :: xs.map Token.num) = .ok xs.sum ∧
    programStdout (Token.num n :: xs.map Token.num) = toString xs.sum ++ "\n" ∧
    programExit (Token.num n :: xs.map Token.num) = 0 := by
  have hcount : readInt 1 1000000 (Token.num n :: xs.map Token.num) =
      .ok (n, xs.map Token.num) :=
    readInt_ok_intro (xs.map Token.num) hn1 hn2 (by omega) (by omega)
  have hrv : readVector n.toNat INT_MIN INT_MAX (xs.map Token.num) =
      .ok (xs, []) := by
    rw [← hlen]
    exact readVector_ok xs hel
  have hlen6 : (xs.length : Int) ≤ 1000000 := by omega
  have hsl : sumLoop 0 xs = .ok (0 + xs.sum) :=
    sumLoop_ok xs 0 hel (by omega) (by omega)
  have hsolve : solve (Token.num n :: xs.map Token.num) = .ok xs.sum := by
    simp only [solve, hcount, hrv, hsl, zero_add]
  exact ⟨hsolve, by simp only [programStdout, hsolve],
    by simp only [programExit, hsolve]⟩

/-- Witness for C1 at the concrete input `2 3 4`. -/
theorem C1_solve_sum_correct_witness :
    solve (Token.num 2 :: List.map Token.num [3, 4]) = .ok (List.sum [3, 4]) ∧
    programStdout (Token.num 2 :: List.map Token.num [3, 4]) =
      toString (List.sum [3, 4]) ++ "\n" ∧
    programExit (Token.num 2 :: List.map Token.num [3, 4]) = 0 :=
  C1_solve_sum_correct 2 [3, 4] (by decide) (by decide) (by decide) (by decide)

/-- C1 counterexample to the claim as stated: the token `3000000000` is a
well-formed integer whose value (and hence the sum of the sequence) is
representable in signed 64 bits, yet the program emits nothing and fails,
because elements are extracted into 32-bit `int`. -/
theorem C1_counterexample :
    INT64_MIN ≤ (3000000000 : Int) ∧ (3000000000 : Int) ≤ INT64_MAX ∧
    solve [Token.num 1, Token.num 3000000000] = .fail .ParseError ∧
    programStdout [Token.num 1, Token.num 3000000000] = "" ∧
    programExit [Token.num 1, Token.num 3000000000] = 1 := by decide

/-- C2 (amended): an input with a valid count whose true running sum would
leave the signed 64-bit range at some prefix necessarily contains an
element not representable in 32-bit `int`; the program terminates with a
parse failure — never `OverflowError` — before writing anything to standard
output. -/
theorem C2_overflow_prefix (n : Int) (xs : List Int)
    (hn1 : 1 ≤ n) (hn2 : n ≤ 1000000) (hlen : xs.length = n.toNat)
    (hover : ∃ k, (xs.take k).sum < INT64_MIN ∨ (xs.take k).sum > INT64_MAX) :
    solve (Token.num n :: xs.map Token.num) = .fail .ParseError ∧
    programStdout (Token.num n :: xs.map Token.num) = "" := by
  have hbad : ∃ x ∈ xs, x < -2147483648 ∨ x > 2147483647 := by
    by_contra hno
    push_neg at hno
    obtain ⟨k, hk⟩ := hover
    have hb := sum_bounds_int32 (xs.take k)
      (fun y hy => hno y (List.take_subset k xs hy))
    have hlt : (xs.take k).length ≤ xs.length := by
      rw [List.length_take]; omega
    have hlen6 : (xs.length : Int) ≤ 1000000 := by omega
    simp only [INT64_MIN, INT64_MAX] at hk
    have hcast : ((xs.take k).length : Int) ≤ (xs.length : Int) := by omega
    omega
  have hcount : readInt 1 1000000 (Token.num n :: xs.map Token.num) =
      .ok (n, xs.map Token.num) :=
    readInt_ok_intro (xs.map Token.num) hn1 hn2 (by omega) (by omega)
  have hrv : readVector n.toNat INT_MIN INT_MAX (xs.map Token.num) =
      .error .ParseError := by
    rw [← hlen]
    exact readVector_parse_fail xs hbad
  have hsolve : solve (Token.num n :: xs.map Token.num) = .fail .ParseError := by
    simp only [solve, hcount, hrv]
  exact ⟨hsolve, by simp only [programStdout, hsolve]⟩

/-- Witness for C2: count 2 with elements `9223372036854775807 1`, whose
true sum leaves the 64-bit range at the second prefix. -/
theorem C2_overflow_prefix_witness :
    solve (Token.num 2 :: List.map Token.num [9223372036854775807, 1]) =
      .fail .ParseError ∧
    programStdout (Token.num 2 :: List.map Token.num [9223372036854775807, 1]) =
      "" :=
  C2_overflow_prefix 2 [9223372036854775807, 1] (by decide) (by decide)
    (by decide) ⟨2, by decide⟩

/-- C2 counterexample to the claim as stated: on count 2 with elements
`9223372036854775807 1` the true sum first leaves the 64-bit range at the
second prefix, but the run ends in a parse failure, not the claimed
overflow failure. -/
theorem C2_counterexample :
    (List.take 2 [(9223372036854775807 : Int), 1]).sum > INT64_MAX ∧
    solve [Token.num 2, Token.num 9223372036854775807, Token.num 1] ≠
      .fail .OverflowError ∧
    solve [Token.num 2, Token.num 9223372036854775807, Token.num 1] =
      .fail .ParseError := by decide

/-- C3 (amended): the overflow-checked addition signals failure exactly
when `(term > 0 ∧ accumulator > LLINF − term)` or
`(term < 0 ∧ accumulator < −LLINF − term)` with `LLINF = 9·10^18` (not
`INT64_MAX`/`INT64_MIN`); otherwise the loop performs the addition
`accumulator + term`, and the check is evaluated before the addition is
executed. -/
theorem C3_canAdd_condition (a b acc x : Int) (xs : List Int) :
    (canAdd a b = false ↔
      ((0 < b ∧ LLINF - b < a) ∨ (b < 0 ∧ a < -LLINF - b))) ∧
    sumLoop acc (x :: xs) =
      (if canAdd acc x then sumLoop (acc + x) xs
       else .error .OverflowError) := by
  refine ⟨⟨fun h => ?_, fun h => ?_⟩, rfl⟩
  · by_cases h1 : 0 < b ∧ LLINF - b < a
    · exact Or.inl h1
    · by_cases h2 : b < 0 ∧ a < -LLINF - b
      · exact Or.inr h2
      · simp only [canAdd] at h
        rw [if_neg h1, if_neg h2] at h
        exact absurd h (by simp)
  · simp only [canAdd]
    rcases h with h | h
    · rw [if_pos h]
    · rw [if_neg (fun hc => absurd hc.1 (by omega)), if_pos h]

/-- C3 counterexample to the claim as stated: at accumulator
`9·10^18` and term `1` the code signals overflow, although
`9·10^18 > INT64_MAX − 1` is false, so the claim's `INT64_MAX`-based
condition says the addition should succeed. -/
theorem C3_counterexample :
    canAdd 9000000000000000000 1 = false ∧
    ¬((0 < (1 : Int) ∧ INT64_MAX - 1 < (9000000000000000000 : Int)) ∨
      ((1 : Int) < 0 ∧ (9000000000000000000 : Int) < INT64_MIN - 1)) := by
  decide

/-- C4: the count is accepted exactly when `1 ≤ n ≤ 1000000`; `n = 0` and
`n = 1000001` end the run with a range failure, a malformed first token
ends it with a parse failure, and in every such case nothing is written to
standard output.  `n = 1000000` satisfies the acceptance equivalence. -/
theorem C4_count_bounds (v : Int) (rest : List Token) :
    (solve (Token.num 0 :: rest) = .fail .RangeError ∧
      programStdout (Token.num 0 :: rest) = "") ∧
    (solve (Token.num 1000001 :: rest) = .fail .RangeError ∧
      programStdout (Token.num 1000001 :: rest) = "") ∧
    (solve (Token.junk :: rest) = .fail .ParseError ∧
      programStdout (Token.junk :: rest) = "") ∧
    (readInt 1 1000000 (Token.num v :: rest) = .ok (v, rest) ↔
      1 ≤ v ∧ v ≤ 1000000) := by
  have r0 : readInt 1 1000000 (Token.num 0 :: rest) = .error .RangeError := by
    simp [readInt, INT_MIN, INT_MAX, validateRange]
  have r1 : readInt 1 1000000 (Token.num 1000001 :: rest) =
      .error .RangeError := by
    simp [readInt, INT_MIN, INT_MAX, validateRange]
  have rj : readInt 1 1000000 (Token.junk :: rest) = .error .ParseError := rfl
  have h0 : solve (Token.num 0 :: rest) = .fail .RangeError := by
    simp only [solve, r0]
  have h1 : solve (Token.num 1000001 :: rest) = .fail .RangeError := by
    simp only [solve, r1]
  have hj : solve (Token.junk :: rest) = .fail .ParseError := by
    simp only [solve, rj]
  refine ⟨⟨h0, by simp only [programStdout, h0]⟩,
    ⟨h1, by simp only [programStdout, h1]⟩,
    ⟨hj, by simp only [programStdout, hj]⟩, ⟨fun h => ?_, fun h => ?_⟩⟩
  · have := readInt_ok_elim h
    exact ⟨this.2.1, this.2.2.1⟩
  · exact readInt_ok_intro rest h.1 h.2 (by omega) (by omega)

/-- C5 (amended): each element is read into 32-bit `int` with bounds
`[INT_MIN, INT_MAX] = [−2^31, 2^31−1]`; every well-formed token
representable in signed 32 bits is accepted (no parse and no range
failure), while 64-bit-only values fail extraction. -/
theorem C5_element_int32 (v : Int) (rest : List Token)
    (h1 : -2147483648 ≤ v) (h2 : v ≤ 2147483647) :
    readInt INT_MIN INT_MAX (Token.num v :: rest) = .ok (v, rest) :=
  readInt_ok_intro rest (by simp only [INT_MIN]; omega)
    (by simp only [INT_MAX]; omega) h1 h2

/-- Witness for C5 at the boundary value `INT_MAX`. -/
theorem C5_element_int32_witness :
    readInt INT_MIN INT_MAX [Token.num 2147483647] = .ok (2147483647, []) :=
  C5_element_int32 2147483647 [] (by decide) (by decide)

/-- C5 counterexample to the claim as stated: `3000000000` is a well-formed
integer token representable in signed 64 bits, yet reading it as an element
triggers a parse failure. -/
theorem C5_counterexample :
    INT64_MIN ≤ (3000000000 : Int) ∧ (3000000000 : Int) ≤ INT64_MAX ∧
    solve [Token.num 2, Token.num 3000000000, Token.num 5] =
      .fail .ParseError := by decide

/-- C6: the failure the program reports is the first one encountered in the
spec's scan order — count first, then elements left to right with
interleaved read-and-add: on every input the source's
read-all-then-add `solve` produces exactly the outcome of the interleaved
reference model, failure kind included. -/
theorem C6_first_failure_scan_order (toks : List Token) :
    solve toks = solveInterleaved toks := by
  cases hread : readInt 1 1000000 toks with
  | error f => simp only [solve, solveInterleaved, hread]
  | ok p =>
    obtain ⟨n, rest⟩ := p
    obtain ⟨-, hn1, hn2, -, -⟩ := readInt_ok_elim hread
    have hn' : ((n.toNat : Int)) = n := Int.toNat_of_nonneg (by omega)
    simp only [solve, solveInterleaved, hread]
    rw [interleaved_eq_aux n.toNat 0 rest (by omega) (by omega)]

/-- C7: the exit status is 0 exactly when `solve` completes successfully;
every failure exits with status 1 after writing a diagnostic line to the
error channel, which is distinct from standard output (standard output
stays empty). -/
theorem C7_exit_status (toks : List Token) (f : Failure) :
    (programExit toks = 0 ↔ ∃ s, solve toks = .ok s) ∧
    (solve toks = .fail f →
      programExit toks = 1 ∧ programStdout toks = "" ∧
        programStderr toks ≠ "") := by
  constructor
  · cases hs : solve toks with
    | ok s =>
      simp only [programExit, hs]
      exact ⟨fun _ => ⟨s, rfl⟩, fun _ => by simp⟩
    | fail g =>
      simp only [programExit, hs]
      constructor
      · intro h; exact absurd h (by simp)
      · rintro ⟨s, hsk⟩; exact absurd hsk (by simp)
  · intro hf
    refine ⟨by simp only [programExit, hf], by simp only [programStdout, hf], ?_⟩
    cases f <;> simp [programStderr, hf]

/-- Witness for C7 at the concrete failing input consisting of one
malformed token. -/
theorem C7_exit_status_witness :
    programExit [Token.junk] = 1 ∧ programStdout [Token.junk] = "" ∧
      programStderr [Token.junk] ≠ "" :=
  (C7_exit_status [Token.junk] .ParseError).2 (by decide)

/-- C8: the program is deterministic — its standard output, exit status and
diagnostic output are functions of the input token stream alone.  The
source consumes no input other than `cin` (no randomness, clock, or
environment), so its embedding is a pure function and equal inputs yield
equal observable behaviour. -/
theorem C8_deterministic (t1 t2 : List Token) (h : t1 = t2) :
    programStdout t1 = programStdout t2 ∧ programExit t1 = programExit t2 ∧
      programStderr t1 = programStderr t2 := by
  subst h
  exact ⟨rfl, rfl, rfl⟩

/-- Witness for C8 at a concrete input. -/
theorem C8_deterministic_witness :
    programStdout [Token.num 1, Token.num 5] =
      programStdout [Token.num 1, Token.num 5] ∧
    programExit [Token.num 1, Token.num 5] =
      programExit [Token.num 1, Token.num 5] ∧
    programStderr [Token.num 1, Token.num 5] =
      programStderr [Token.num 1, Token.num 5] :=
  C8_deterministic [Token.num 1, Token.num 5] [Token.num 1, Token.num 5] rfl

/-- C9 counterexample to the claim as stated: there is no pair of arguments
with zero second operand for which `canMultiply` executes its division —
the early return `if (a == 0 || b == 0) return true;` fires first. -/
theorem C9_counterexample :
    ¬∃ a b : Int, b = 0 ∧ canMultiplyDivides a b = true := by
  rintro ⟨a, b, rfl, h⟩
  simp [canMultiplyDivides] at h

/-- C9 (amended): `canMultiply` returns `true` immediately when either
operand is zero, and its division `LLINF / |b|` is executed only when both
operands are non-zero, so the division is never executed with a zero second
operand. -/
theorem C9_division_guard (a b : Int) :
    canMultiply a 0 = true ∧
      (canMultiplyDivides a b = true → a ≠ 0 ∧ b ≠ 0) := by
  constructor
  · simp [canMultiply]
  · intro h
    simp only [canMultiplyDivides] at h
    by_cases hc : a = 0 ∨ b = 0
    · rw [if_pos hc] at h
      exact absurd h (by simp)
    · push_neg at hc
      exact hc

/-- Witness for C9 at concrete operands. -/
theorem C9_division_guard_witness :
    canMultiply 7 0 = true ∧ ((2 : Int) ≠ 0 ∧ (3 : Int) ≠ 0) :=
  ⟨(C9_division_guard 7 0).1, (C9_division_guard 2 3).2 (by decide)⟩

/-- C10 counterexample to the claim as stated: `canAdd INT64_MAX 0` returns
`true` although the sum `INT64_MAX + 0` exceeds `9·10^18`, so the claimed
interval `[−9·10^18, 9·10^18]` does not contain every approved sum. -/
theorem C10_counterexample :
    canAdd INT64_MAX 0 = true ∧
      INT64_MAX + (0 : Int) > 9000000000000000000 := by decide

/-- C10 (amended): whenever `canAdd a b` returns `true` for signed-64-bit
operands, the mathematical sum `a + b` lies within the signed 64-bit range
(though not necessarily within `[−9·10^18, 9·10^18]`); and the summation
loop of `solve`, whose accumulator starts at 0, keeps the accumulator in
`[−LLINF, LLINF]`, so every addition it executes is representable and never
wraps. -/
theorem C10_no_wrap (a b acc s : Int) (xs : List Int) :
    (INT64_MIN ≤ a → a ≤ INT64_MAX → INT64_MIN ≤ b → b ≤ INT64_MAX →
      canAdd a b = true → INT64_MIN ≤ a + b ∧ a + b ≤ INT64_MAX) ∧
    (-LLINF ≤ acc → acc ≤ LLINF → sumLoop acc xs = .ok s →
      -LLINF ≤ s ∧ s ≤ LLINF) := by
  constructor
  · intro ha1 ha2 hb1 hb2 hca
    have hb := canAdd_true_bounds hca
    simp only [INT64_MIN, INT64_MAX] at ha1 ha2 hb1 hb2 ⊢
    omega
  · intro h1 h2 h
    have hi := sumLoop_inv xs acc s (by simp only [LLINF] at h1; omega)
      (by simp only [LLINF] at h2; omega) h
    simp only [LLINF]
    omega

/-- Witness for C10 at concrete operands and a concrete run of the loop. -/
theorem C10_no_wrap_witness :
    (INT64_MIN ≤ (1 : Int) + 2 ∧ (1 : Int) + 2 ≤ INT64_MAX) ∧
    (-LLINF ≤ (3 : Int) ∧ (3 : Int) ≤ LLINF) :=
  ⟨(C10_no_wrap 1 2 0 3 [3]).1 (by decide) (by decide) (by decide) (by decide)
      (by decide),
    (C10_no_wrap 1 2 0 3 [3]).2 (by decide) (by decide) (by rfl)⟩

end CF
